import Mathlib

/-!
Verification development for the Long-Form-Audio-Eval repository.

The repository benchmarks speech-to-text transcripts against a reference
transcript.  The scripts modelled here are:

- `scripts/calculate_benchmarks.py` — WER / CER / word-accuracy metrics,
  computed through the third-party `jiwer` library, and a ranking summary;
- `scripts/evaluate_transcripts.py` — a second metric script with its own
  `calculate_metrics`;
- `scripts/calculate_punctuation_accuracy.py` — punctuation counting,
  context extraction, and the composite punctuation score.

Python strings are modelled as `List Char` (a Python `str` is a sequence of
code points); real-valued computations are modelled over `ℚ` (the Python
code computes with binary floats; every concrete value appearing in a
theorem below is exactly representable, and no property proved here
depends on float rounding error).

The sequence aligner itself lives in the third-party `jiwer` package, not
in this repository; it is modelled from the specification (section 4.2):
dynamic-programming Levenshtein alignment with unit costs, tie order
match/substitution first, then deletion, then insertion.
-/

/-- Counts produced by a token alignment: `hits` (exact matches),
`substitutions`, `deletions` (reference tokens with no counterpart),
`insertions` (hypothesis tokens with no counterpart). -/
structure AlignmentResult where
  hits : Nat
  substitutions : Nat
  deletions : Nat
  insertions : Nat
deriving Repr, DecidableEq

/-- Modelled from the spec: the classic Levenshtein edit distance with unit
cost for substitution, insertion and deletion (spec section 4.2); the
aligner is implemented by the external `jiwer` library, so the distance is
reconstructed from the specification text. -/
def editDist [DecidableEq α] : List α → List α → Nat
  | [], bs => bs.length
  | _ :: as, [] => as.length + 1
  | a :: as, b :: bs =>
      min (editDist as bs + (if a = b then 0 else 1))
        (min (editDist as (b :: bs) + 1) (editDist (a :: as) bs + 1))
termination_by as bs => as.length + bs.length
decreasing_by all_goals simp_arith

/-- Modelled from the spec: the minimum-edit-distance alignment of spec
section 4.2, accumulating hit/substitution/deletion/insertion counts and
breaking cost ties in the documented order (match/substitution first, then
deletion, then insertion).  The spec states the tie order for a backtrack
over the DP table; here the same preference order is applied recursively
from the front of the sequences.  Every property proved about `align`
below (conservation, self-alignment, cost) is insensitive to the tie
order. -/
def align [DecidableEq α] : List α → List α → AlignmentResult
  | [], [] => ⟨0, 0, 0, 0⟩
  | _ :: as, [] =>
      let r := align as []
      { r with deletions := r.deletions + 1 }
  | [], _ :: bs =>
      let r := align [] bs
      { r with insertions := r.insertions + 1 }
  | a :: as, b :: bs =>
      let dDiag := editDist as bs + (if a = b then 0 else 1)
      let dDel := editDist as (b :: bs) + 1
      let dIns := editDist (a :: as) bs + 1
      if dDiag ≤ dDel ∧ dDiag ≤ dIns then
        let r := align as bs
        if a = b then { r with hits := r.hits + 1 }
        else { r with substitutions := r.substitutions + 1 }
      else if dDel ≤ dIns then
        let r := align as (b :: bs)
        { r with deletions := r.deletions + 1 }
      else
        let r := align (a :: as) bs
        { r with insertions := r.insertions + 1 }
termination_by as bs => as.length + bs.length
decreasing_by all_goals simp_arith


/-! ## Python text primitives

`scripts/calculate_punctuation_accuracy.py` works on Python `str` values
through `str.split()`, `str.strip()`, `str.lower()`, `str.isalnum()` and
f-string concatenation.  A Python string is modelled as `List Char`.
`Char.isAlphanum` / `Char.toLower` are ASCII approximations of the Unicode
Python predicates; every text appearing in a concrete theorem below is
ASCII apart from the em dash, which neither predicate touches. -/

/-- Helper for `pySplit`: scan the text, accumulating the current word in
reverse; a whitespace character closes the current word (if any), and the
end of the text flushes it. -/
def pySplitGo (cur : List Char) : List Char → List (List Char)
  | [] => if cur = [] then [] else [cur.reverse]
  | c :: cs =>
      if c.isWhitespace then
        if cur = [] then pySplitGo [] cs
        else cur.reverse :: pySplitGo [] cs
      else pySplitGo (c :: cur) cs

/-- Model of Python `str.split()` (no separator argument): split on runs of
whitespace and discard empty pieces. -/
def pySplit (s : List Char) : List (List Char) := pySplitGo [] s

/-- Model of Python `str.strip()`: remove leading and trailing whitespace. -/
def pyStrip (s : List Char) : List Char :=
  ((s.dropWhile Char.isWhitespace).reverse.dropWhile Char.isWhitespace).reverse

/-- Model of Python `' '.join(...)`. -/
def joinSpace : List (List Char) → List Char
  | [] => []
  | [w] => w
  | w :: v :: ws => w ++ ' ' :: joinSpace (v :: ws)

/-- Model of Python `str.lower()` (ASCII approximation). -/
def pyLower (s : List Char) : List Char := s.map Char.toLower

/-- The punctuation alphabet of `extract_punctuation_context`
(`calculate_punctuation_accuracy.py` line 19): eight marks, with NO double
quote and NO apostrophe. -/
def punctuation_marks : List Char := ['.', '!', '?', ',', ';', ':', '-', '—']

/-- The punctuation alphabet of `count_punctuation`
(`calculate_punctuation_accuracy.py` line 43): the eight context marks plus
the double quote (code point 34) and the apostrophe (code point 39). -/
def count_punctuation_marks : List Char :=
  ['.', '!', '?', ',', ';', ':', '-', '—', Char.ofNat 34, Char.ofNat 39]

/-- The mark-stripped content of a host token
(`calculate_punctuation_accuracy.py` line 33): keep only alphanumeric or
whitespace characters. -/
def word_clean (word : List Char) : List Char :=
  word.filter (fun c => c.isAlphanum || c.isWhitespace)

/-- The context string for the host token at index `i` of `words`
(`calculate_punctuation_accuracy.py` lines 29-36): up to `context_words`
preceding tokens, the mark-stripped host token, up to `context_words`
following tokens, joined by single spaces, stripped, lower-cased.
Slice `words[max(0, i-cw) : i]` is `(words.take i).drop (i - cw)` and
slice `words[i+1 : min(len(words), i+cw+1)]` is
`(words.take (i+cw+1)).drop (i+1)` (truncated Nat subtraction and `take`
beyond the length mirror the Python clamping). -/
def punctContext (words : List (List Char)) (context_words i : Nat)
    (word : List Char) : List Char :=
  let context_before := joinSpace ((words.take i).drop (i - context_words))
  let context_after := joinSpace ((words.take (i + context_words + 1)).drop (i + 1))
  pyLower (pyStrip (context_before ++ ' ' :: (word_clean word ++ ' ' :: context_after)))

/-- The pairs contributed by the single host token `word` at index `i`:
the inner loop `for punct in punctuation_marks: if punct in word`
(`calculate_punctuation_accuracy.py` lines 26-36).  One pair per mark OF THE
ALPHABET present in the token, in alphabet order, each with the same
context string. -/
def hostPairs (words : List (List Char)) (context_words i : Nat)
    (word : List Char) : List (List Char × Char) :=
  punctuation_marks.filterMap (fun punct =>
    if punct ∈ word then some (punctContext words context_words i word, punct)
    else none)

/-- `extract_punctuation_context` (`calculate_punctuation_accuracy.py`
lines 13-38): split the text into words and collect the pairs of every
host token. -/
def extract_punctuation_context (text : List Char) (context_words : Nat := 2) :
    List (List Char × Char) :=
  let words := pySplit text
  words.enum.flatMap (fun iw => hostPairs words context_words iw.1 iw.2)

/-- `count_punctuation` (`calculate_punctuation_accuracy.py` lines 41-50) as
a total counting function: the value `Counter`/`dict` lookup `counts.get(m, 0)`
would give.  A character outside the ten-mark alphabet is never tallied. -/
def count_punctuation (text : List Char) (m : Char) : Nat :=
  if m ∈ count_punctuation_marks then text.count m else 0

/-- The key set of the `count_punctuation` dictionary: the marks with a
positive tally.  The Python dict lists keys in first-occurrence order; the
only consumer (`set(list(ref_counts.keys()) + list(hyp_counts.keys()))`)
is order-insensitive, so the fixed alphabet order is used here. -/
def punctuation_keys (text : List Char) : List Char :=
  count_punctuation_marks.filter (fun m => decide (0 < text.count m))

/-- `sum(counts.values())` for the `count_punctuation` dictionary: the
number of characters of the text that lie in the ten-mark alphabet. -/
def total_punctuation (text : List Char) : Nat :=
  text.countP (fun c => c ∈ count_punctuation_marks)

/-! ## Punctuation metrics (`calculate_punctuation_metrics`, lines 53-141) -/

/-- Two-decimal rounding, Python `round(x, 2)`: scale by `100`, round to
the nearest integer, scale back.  Python rounds exact half-multiples of
`0.005` to even; this model rounds them up (no value appearing in a
theorem below is such a tie). -/
def round2 (x : ℚ) : ℚ := ((⌊x * 100 + 1 / 2⌋ : ℤ) : ℚ) / 100


/-- The per-mark count accuracy of `calculate_punctuation_metrics`
(lines 75-79): `100` when both counts are zero, `0` when only the
reference count is zero, otherwise
`max(0, 100 - abs(ref_count - hyp_count) / ref_count * 100)`. -/
def mark_count_accuracy (ref_count hyp_count : Nat) : ℚ :=
  if ref_count = 0 then (if hyp_count = 0 then 100 else 0)
  else max 0 (100 - |(ref_count : ℚ) - (hyp_count : ℚ)| / (ref_count : ℚ) * 100)

/-- One entry of the `mark_accuracy` mapping (lines 81-85). -/
structure MarkAccuracy where
  reference_count : Nat
  hypothesis_count : Nat
  count_accuracy : ℚ
deriving Repr, DecidableEq

/-- One insertion step of the grouping loops (lines 92-102): append the
mark to the list of the context if the context is already a key, create
the key otherwise.  The Python dict keeps keys in first-insertion order
and appends marks in observation order. -/
def insertPair (d : List (List Char × List Char)) (ctx : List Char) (p : Char) :
    List (List Char × List Char) :=
  match d with
  | [] => [(ctx, [p])]
  | (k, v) :: rest =>
      if k = ctx then (k, v ++ [p]) :: rest else (k, v) :: insertPair rest ctx p

/-- The grouping loops of lines 92-102: fold the (context, mark) pairs into
an insertion-ordered association list from context to ordered mark list. -/
def group_contexts (pairs : List (List Char × Char)) : List (List Char × List Char) :=
  pairs.foldl (fun d cp => insertPair d cp.1 cp.2) []

/-- The matching loop of lines 105-113: a reference context key counts as
matched when the hypothesis mapping has the identical key bound to the
identical ordered mark list. -/
def matched_contexts (ref_dict hyp_dict : List (List Char × List Char)) : Nat :=
  ref_dict.countP (fun kv => List.lookup kv.1 hyp_dict == some kv.2)

/-- The result dictionary of `calculate_punctuation_metrics`
(lines 124-141). -/
structure PunctuationMetrics where
  total_reference : Nat
  total_hypothesis : Nat
  difference : Int
  reference_density_percent : ℚ
  hypothesis_density_percent : ℚ
  mark_accuracy : List (Char × MarkAccuracy)
  context_match_accuracy : ℚ
  overall_punctuation_score : ℚ
deriving Repr, DecidableEq

/-- The mark union of lines 71-73:
`set(list(ref_counts.keys()) + list(hyp_counts.keys()))`, realised as the
alphabet filtered to the marks occurring in either text (Python set
iteration order is arbitrary; `mark_accuracy` is keyed by mark and every
consumer is order-insensitive). -/
def mark_union (reference hypothesis : List Char) : List Char :=
  count_punctuation_marks.filter (fun m =>
    decide (0 < count_punctuation reference m) ||
      decide (0 < count_punctuation hypothesis m))

/-- One entry of the `mark_accuracy` mapping, lines 72-85: the two raw
counts and the rounded count accuracy. -/
def mark_accuracy_entry (reference hypothesis : List Char) (m : Char) :
    Char × MarkAccuracy :=
  (m, { reference_count := count_punctuation reference m
        hypothesis_count := count_punctuation hypothesis m
        count_accuracy := round2 (mark_count_accuracy
          (count_punctuation reference m) (count_punctuation hypothesis m)) })

/-- `calculate_punctuation_metrics` (`calculate_punctuation_accuracy.py`
lines 53-141), with every guarded Python division carried out in `ℚ`. -/
def calculate_punctuation_metrics (reference hypothesis : List Char) :
    PunctuationMetrics :=
  let total_ref_punct := total_punctuation reference
  let total_hyp_punct := total_punctuation hypothesis
  let markAcc := (mark_union reference hypothesis).map
    (mark_accuracy_entry reference hypothesis)
  let ref_dict := group_contexts (extract_punctuation_context reference)
  let hyp_dict := group_contexts (extract_punctuation_context hypothesis)
  let matched := matched_contexts ref_dict hyp_dict
  let total_contexts := ref_dict.length
  let context_accuracy : ℚ :=
    if 0 < total_contexts then (matched : ℚ) / (total_contexts : ℚ) * 100 else 0
  let ref_words := (pySplit reference).length
  let hyp_words := (pySplit hypothesis).length
  let ref_density : ℚ :=
    if 0 < ref_words then (total_ref_punct : ℚ) / (ref_words : ℚ) * 100 else 0
  let hyp_density : ℚ :=
    if 0 < hyp_words then (total_hyp_punct : ℚ) / (hyp_words : ℚ) * 100 else 0
  { total_reference := total_ref_punct
    total_hypothesis := total_hyp_punct
    difference := (total_hyp_punct : Int) - (total_ref_punct : Int)
    reference_density_percent := round2 ref_density
    hypothesis_density_percent := round2 hyp_density
    mark_accuracy := markAcc
    context_match_accuracy := round2 context_accuracy
    overall_punctuation_score := round2
      (context_accuracy * 0.7 +
        (100 - |ref_density - hyp_density| / max ref_density 0.01 * 100) * 0.3) }

/-! ## WER / CER metrics

`calculate_benchmarks.py` and `evaluate_transcripts.py` both delegate the
alignment itself to the third-party `jiwer` library, which is not part of
this repository; the alignment and the error-rate normalization are
modelled from the spec (sections 4.2, 4.3 and 7) by `align` and
`errorRate`. -/

/-- Modelled from the spec: the error rate of an alignment,
`(substitutions + deletions + insertions) / reference_length` (spec
section 4.3).  Spec sections 4.2 and 7: an empty reference with a
non-empty hypothesis is the distinguished `EmptyReferenceError` state
(`none` here), not a crash; two empty sequences give rate `0`. -/
def errorRate [DecidableEq α] (ref hyp : List α) : Option ℚ :=
  if ref.length = 0 then
    (if hyp.length = 0 then some 0 else none)
  else
    some ((((align ref hyp).substitutions + (align ref hyp).deletions
      + (align ref hyp).insertions : ℕ) : ℚ) / (ref.length : ℚ))

/-- Python `sorted(l, key=key, reverse=True)` (used by the summary
rankings of both scripts): a stable sort in descending key order.
CPython timsort is stable and `reverse=True` flips the comparison without
reordering ties; `mergeSort` with the flipped comparison is extensionally
the same function. -/
def pySortedDesc (key : α → ℚ) (l : List α) : List α :=
  l.mergeSort (fun a b => decide (key b ≤ key a))

namespace CalculateBenchmarks

/-- The metrics dictionary returned by `calculate_metrics`
(`calculate_benchmarks.py` lines 35-43). -/
structure Metrics where
  wer : ℚ
  cer : ℚ
  word_accuracy : ℚ
  insertions : Nat
  deletions : Nat
  substitutions : Nat
  hits : Nat
deriving Repr, DecidableEq

/-- `calculate_metrics` (`calculate_benchmarks.py` lines 20-43).  The
`jiwer.wer` / `jiwer.cer` / `jiwer.process_words` calls are modelled by
`errorRate` and `align` over the word-token and character sequences; the
empty-reference state propagates as `none`.  WER and CER are reported as
percentages rounded to two decimals; word accuracy is
`max(0, 1 - wer_value) * 100`, rounded likewise. -/
def calculate_metrics (reference hypothesis : List Char) : Option Metrics := do
  let wer_value ← errorRate (pySplit reference) (pySplit hypothesis)
  let cer_value ← errorRate reference hypothesis
  let word_accuracy := max 0 (1 - wer_value) * 100
  let output := align (pySplit reference) (pySplit hypothesis)
  pure {
    wer := round2 (wer_value * 100)
    cer := round2 (cer_value * 100)
    word_accuracy := round2 word_accuracy
    insertions := output.insertions
    deletions := output.deletions
    substitutions := output.substitutions
    hits := output.hits }

/-- The evaluation loop of `main` (`calculate_benchmarks.py` lines
81-126): each run is one (run id, hypothesis text) pair; a run whose
evaluation fails is caught by the per-run `try`/`except`, skipped, and
the loop continues with the remaining runs.  Config-level filtering
(incomplete runs, missing directories) happens before the text is loaded
and is out of scope. -/
def processRuns (reference : List Char) (runs : List (Nat × List Char)) :
    List (Nat × Metrics) :=
  runs.filterMap (fun r => (calculate_metrics reference r.2).map (fun m => (r.1, m)))

/-- The summary ranking (`calculate_benchmarks.py` lines 148-149): sort
the evaluated runs by word accuracy, descending. -/
def sortResults (results : List (Nat × Metrics)) : List (Nat × Metrics) :=
  pySortedDesc (fun r => r.2.word_accuracy) results

end CalculateBenchmarks

namespace EvaluateTranscripts

/-- The metrics dictionary returned by `calculate_metrics`
(`evaluate_transcripts.py` lines 46-57).  `werpy_wer`, a duplicate WER
value obtained from a second library, is omitted. -/
structure Metrics where
  wer : ℚ
  cer : ℚ
  word_accuracy : ℚ
  substitutions : Nat
  deletions : Nat
  insertions : Nat
  hits : Nat
  reference_words : Nat
  hypothesis_words : Nat
deriving Repr, DecidableEq

/-- `calculate_metrics` (`evaluate_transcripts.py` lines 33-57).  Unlike
the `calculate_benchmarks.py` function of the same name, `wer` and `cer`
are kept as plain ratios and `word_accuracy` is `1 - wer` on the 0-1
scale, with no clamping and no rounding. -/
def calculate_metrics (reference hypothesis : List Char) : Option Metrics := do
  let wer ← errorRate (pySplit reference) (pySplit hypothesis)
  let cer ← errorRate reference hypothesis
  let measures := align (pySplit reference) (pySplit hypothesis)
  pure {
    wer := wer
    cer := cer
    word_accuracy := 1 - wer
    substitutions := measures.substitutions
    deletions := measures.deletions
    insertions := measures.insertions
    hits := measures.hits
    reference_words := (pySplit reference).length
    hypothesis_words := (pySplit hypothesis).length }

end EvaluateTranscripts

/-- The punctuation summary ranking (`calculate_punctuation_accuracy.py`
lines 240-247): sort the evaluated runs by overall punctuation score,
descending. -/
def sortPunctuationResults (results : List (Nat × PunctuationMetrics)) :
    List (Nat × PunctuationMetrics) :=
  pySortedDesc (fun r => r.2.overall_punctuation_score) results

/-! ## Division-checked variant of the punctuation metrics

Python raises `ZeroDivisionError` when a division meets a zero divisor.
`calculate_punctuation_metrics_checked` repeats
`calculate_punctuation_metrics` with every one of its five division sites
routed through `pdiv`, which fails on a zero divisor exactly as Python
would; proving it returns `Except.ok` for all inputs proves all the
source's divisions are guarded. -/

/-- Division with the Python error behavior: a zero divisor raises. -/
def pdiv (a b : ℚ) : Except String ℚ :=
  if b = 0 then Except.error "ZeroDivisionError" else Except.ok (a / b)

/-- `mark_accuracy_entry` with the division of line 79 checked. -/
def mark_accuracy_entry_checked (reference hypothesis : List Char) (m : Char) :
    Except String (Char × MarkAccuracy) := do
  let ref_count := count_punctuation reference m
  let hyp_count := count_punctuation hypothesis m
  let accuracy ←
    if ref_count = 0 then
      pure (if hyp_count = 0 then (100 : ℚ) else 0)
    else do
      let q ← pdiv (|(ref_count : ℚ) - (hyp_count : ℚ)|) (ref_count : ℚ)
      pure (max 0 (100 - q * 100))
  pure ((m, { reference_count := ref_count, hypothesis_count := hyp_count,
              count_accuracy := round2 accuracy : MarkAccuracy }))

/-- `calculate_punctuation_metrics` with explicit `ZeroDivisionError`
propagation at each of the division sites of the source (lines 79, 115,
121, 122 and 138). -/
def calculate_punctuation_metrics_checked (reference hypothesis : List Char) :
    Except String PunctuationMetrics := do
  let total_ref_punct := total_punctuation reference
  let total_hyp_punct := total_punctuation hypothesis
  let markAcc ← (mark_union reference hypothesis).mapM
    (mark_accuracy_entry_checked reference hypothesis)
  let ref_dict := group_contexts (extract_punctuation_context reference)
  let hyp_dict := group_contexts (extract_punctuation_context hypothesis)
  let matched := matched_contexts ref_dict hyp_dict
  let total_contexts := ref_dict.length
  let context_accuracy : ℚ ←
    if 0 < total_contexts then do
      let q ← pdiv (matched : ℚ) (total_contexts : ℚ)
      pure (q * 100)
    else pure 0
  let ref_words := (pySplit reference).length
  let hyp_words := (pySplit hypothesis).length
  let ref_density : ℚ ←
    if 0 < ref_words then do
      let q ← pdiv (total_ref_punct : ℚ) (ref_words : ℚ)
      pure (q * 100)
    else pure 0
  let hyp_density : ℚ ←
    if 0 < hyp_words then do
      let q ← pdiv (total_hyp_punct : ℚ) (hyp_words : ℚ)
      pure (q * 100)
    else pure 0
  let dq ← pdiv (|ref_density - hyp_density|) (max ref_density 0.01)
  pure {
    total_reference := total_ref_punct
    total_hypothesis := total_hyp_punct
    difference := (total_hyp_punct : Int) - (total_ref_punct : Int)
    reference_density_percent := round2 ref_density
    hypothesis_density_percent := round2 hyp_density
    mark_accuracy := markAcc
    context_match_accuracy := round2 context_accuracy
    overall_punctuation_score := round2
      (context_accuracy * 0.7 + (100 - dq * 100) * 0.3) }

/-! ## General lemmas -/

theorem editDist_self [DecidableEq α] : ∀ l : List α, editDist l l = 0
  | [] => by simp [editDist]
  | a :: as => by
      have ih := editDist_self as
      simp [editDist, ih]

theorem align_nil_nil [DecidableEq α] : align ([] : List α) [] = ⟨0, 0, 0, 0⟩ := by
  simp [align]

theorem align_self [DecidableEq α] : ∀ l : List α, align l l = ⟨l.length, 0, 0, 0⟩
  | [] => by simp [align]
  | a :: as => by
      have ih := align_self as
      have hd := editDist_self as
      simp [align, hd, ih]

theorem align_conservation [DecidableEq α] : ∀ as bs : List α,
    (align as bs).hits + (align as bs).substitutions + (align as bs).deletions
      = as.length ∧
    (align as bs).hits + (align as bs).substitutions + (align as bs).insertions
      = bs.length
  | [], [] => by simp [align]
  | a :: as, [] => by
      have ih := align_conservation as ([] : List α)
      simp only [align]
      simp only [List.length_cons, List.length_nil] at ih ⊢
      omega
  | [], b :: bs => by
      have ih := align_conservation ([] : List α) bs
      simp only [align]
      simp only [List.length_cons, List.length_nil] at ih ⊢
      omega
  | a :: as, b :: bs => by
      have ih1 := align_conservation as bs
      have ih2 := align_conservation as (b :: bs)
      have ih3 := align_conservation (a :: as) bs
      simp only [align]
      simp only [List.length_cons] at ih1 ih2 ih3 ⊢
      repeat' split
      all_goals ((try simp only [List.length_cons]); omega)
termination_by as bs => as.length + bs.length
decreasing_by all_goals simp_arith

theorem round2_eq_round (x : ℚ) : round2 x = ((round (x * 100) : ℤ) : ℚ) / 100 := by
  rw [round2, round_eq]

/-- Evaluation helper: `round2 x` is `n / 100` once `n ≤ x·100 + 1/2 < n+1`. -/
theorem round2_eval {x : ℚ} {n : ℤ} (h1 : (n : ℚ) ≤ x * 100 + 1 / 2)
    (h2 : x * 100 + 1 / 2 < n + 1) : round2 x = (n : ℚ) / 100 := by
  rw [round2, Int.floor_eq_iff.mpr ⟨h1, by exact_mod_cast h2⟩]

theorem round2_le_100 {x : ℚ} (h : x ≤ 100) : round2 x ≤ 100 := by
  rw [round2]
  have hf : (⌊x * 100 + 1 / 2⌋ : ℤ) ≤ 10000 := by
    calc ⌊x * 100 + 1 / 2⌋ ≤ ⌊(10000 : ℚ) + 1 / 2⌋ :=
          Int.floor_le_floor (by nlinarith)
      _ = 10000 := Int.floor_eq_iff.mpr (by norm_num)
  rw [div_le_iff₀ (by norm_num : (0 : ℚ) < 100)]
  calc ((⌊x * 100 + 1 / 2⌋ : ℤ) : ℚ) ≤ ((10000 : ℤ) : ℚ) := by exact_mod_cast hf
    _ = 100 * 100 := by norm_num

theorem round2_nonneg {x : ℚ} (h : 0 ≤ x) : 0 ≤ round2 x := by
  rw [round2]
  have hf : (0 : ℤ) ≤ ⌊x * 100 + 1 / 2⌋ := Int.le_floor.mpr (by push_cast; nlinarith)
  positivity

theorem errorRate_nonneg [DecidableEq α] {ref hyp : List α} {w : ℚ}
    (h : errorRate ref hyp = some w) : 0 ≤ w := by
  unfold errorRate at h
  split at h
  · split at h
    · cases h
      norm_num
    · cases h
  · cases h
    positivity

theorem mapM_ok {ε : Type} {α β : Type} {f : α → Except ε β} {g : α → β} :
    ∀ l : List α, (∀ a ∈ l, f a = Except.ok (g a)) → l.mapM f = Except.ok (l.map g)
  | [], _ => rfl
  | a :: l, h => by
      have ih := mapM_ok l (fun x hx => h x (List.mem_cons_of_mem a hx))
      simp only [List.mapM_cons, h a (List.mem_cons_self a l), ih, List.map_cons]
      rfl

theorem mark_accuracy_entry_checked_ok (reference hypothesis : List Char) (m : Char) :
    mark_accuracy_entry_checked reference hypothesis m
      = Except.ok (mark_accuracy_entry reference hypothesis m) := by
  by_cases h0 : count_punctuation reference m = 0
  · simp [mark_accuracy_entry_checked, mark_accuracy_entry, h0, mark_count_accuracy,
      pure, Except.pure, bind, Except.bind]
  · have hne : ((count_punctuation reference m : ℚ)) ≠ 0 := by exact_mod_cast h0
    simp [mark_accuracy_entry_checked, mark_accuracy_entry, h0, mark_count_accuracy,
      pdiv, hne, pure, Except.pure, bind, Except.bind]

/-! ## Claims -/

/-- C1: for every pair of input texts, the alignment counts returned by
`calculate_metrics` (both the `calculate_benchmarks.py` and the
`evaluate_transcripts.py` version) satisfy the conservation law:
hits + substitutions + deletions equals the number of reference word
tokens, and hits + substitutions + insertions equals the number of
hypothesis word tokens. -/
theorem C1_alignment_conservation (reference hypothesis : List Char) :
    (∀ m : CalculateBenchmarks.Metrics,
      CalculateBenchmarks.calculate_metrics reference hypothesis = some m →
        m.hits + m.substitutions + m.deletions = (pySplit reference).length ∧
        m.hits + m.substitutions + m.insertions = (pySplit hypothesis).length) ∧
    (∀ m : EvaluateTranscripts.Metrics,
      EvaluateTranscripts.calculate_metrics reference hypothesis = some m →
        m.hits + m.substitutions + m.deletions = (pySplit reference).length ∧
        m.hits + m.substitutions + m.insertions = (pySplit hypothesis).length) := by
  constructor
  · intro m h
    simp only [CalculateBenchmarks.calculate_metrics, bind, Option.bind] at h
    cases hw : errorRate (pySplit reference) (pySplit hypothesis) <;> rw [hw] at h
    · exact absurd h (by simp)
    cases hc : errorRate reference hypothesis <;> rw [hc] at h
    · exact absurd h (by simp)
    simp only [pure, Option.some.injEq] at h
    subst h
    simpa using align_conservation (pySplit reference) (pySplit hypothesis)
  · intro m h
    simp only [EvaluateTranscripts.calculate_metrics, bind, Option.bind] at h
    cases hw : errorRate (pySplit reference) (pySplit hypothesis) <;> rw [hw] at h
    · exact absurd h (by simp)
    cases hc : errorRate reference hypothesis <;> rw [hc] at h
    · exact absurd h (by simp)
    simp only [pure, Option.some.injEq] at h
    subst h
    simpa using align_conservation (pySplit reference) (pySplit hypothesis)

/-- Witness for C1 on the concrete pair "a b" / "a b". -/
theorem C1_alignment_conservation_witness :
    ∃ m : CalculateBenchmarks.Metrics, ∃ mE : EvaluateTranscripts.Metrics,
      CalculateBenchmarks.calculate_metrics "a b".data "a b".data = some m ∧
      EvaluateTranscripts.calculate_metrics "a b".data "a b".data = some mE ∧
      m.hits + m.substitutions + m.deletions = (pySplit "a b".data).length ∧
      mE.hits + mE.substitutions + mE.insertions = (pySplit "a b".data).length := by
  have hs : pySplit "a b".data = [['a'], ['b']] := by decide
  have ha1 : align [['a'], ['b']] [['a'], ['b']] = ⟨2, 0, 0, 0⟩ := align_self _
  have ha2 : align "a b".data "a b".data = ⟨3, 0, 0, 0⟩ := align_self _
  have he1 : errorRate [['a'], ['b']] [['a'], ['b']] = some 0 := by
    rw [errorRate, ha1]
    norm_num
  have he2 : errorRate "a b".data "a b".data = some 0 := by
    rw [errorRate, ha2]
    norm_num
  have hr0 : round2 0 = 0 := by
    rw [round2_eval (n := 0) (by norm_num) (by norm_num)]; norm_num
  have hr100 : round2 100 = 100 := by
    rw [round2_eval (n := 10000) (by norm_num) (by norm_num)]; norm_num
  have hB : CalculateBenchmarks.calculate_metrics "a b".data "a b".data
      = some ⟨0, 0, 100, 0, 0, 0, 2⟩ := by
    simp only [CalculateBenchmarks.calculate_metrics, hs, he1, he2, ha1, bind, Option.bind,
      pure, Option.some.injEq, CalculateBenchmarks.Metrics.mk.injEq]
    norm_num [hr0, hr100]
  have hE : EvaluateTranscripts.calculate_metrics "a b".data "a b".data
      = some ⟨0, 0, 1, 0, 0, 0, 2, 2, 2⟩ := by
    simp only [EvaluateTranscripts.calculate_metrics, hs, he1, he2, ha1, bind, Option.bind,
      pure, Option.some.injEq, EvaluateTranscripts.Metrics.mk.injEq]
    norm_num
  exact ⟨_, _, hB, hE,
    ((C1_alignment_conservation "a b".data "a b".data).1 _ hB).1,
    ((C1_alignment_conservation "a b".data "a b".data).2 _ hE).2⟩

/-- C10: `calculate_punctuation_metrics` is total — for every pair of
input texts (empty, punctuation-free, or word-free included) the
division-checked variant succeeds, i.e. every division of the source is
guarded and no `ZeroDivisionError` can be raised. -/
theorem C10_no_division_error (reference hypothesis : List Char) :
    calculate_punctuation_metrics_checked reference hypothesis
      = Except.ok (calculate_punctuation_metrics reference hypothesis) := by
  unfold calculate_punctuation_metrics_checked calculate_punctuation_metrics
  rw [mapM_ok _ (fun m _ => mark_accuracy_entry_checked_ok reference hypothesis m)]
  have hmax : ∀ x : ℚ, ¬(max x (0.01 : ℚ) = 0) :=
    fun x => ne_of_gt (lt_of_lt_of_le (by norm_num) (le_max_right x 0.01))
  by_cases h1 : 0 < (group_contexts (extract_punctuation_context reference 2)).length <;>
    by_cases h2 : 0 < (pySplit reference).length <;>
    by_cases h3 : 0 < (pySplit hypothesis).length <;>
    (try have hne1 :
      (((group_contexts (extract_punctuation_context reference 2)).length : ℚ)) ≠ 0 :=
      ne_of_gt (by exact_mod_cast h1)) <;>
    (try have hne2 : (((pySplit reference).length : ℚ)) ≠ 0 :=
      ne_of_gt (by exact_mod_cast h2)) <;>
    (try have hne3 : (((pySplit hypothesis).length : ℚ)) ≠ 0 :=
      ne_of_gt (by exact_mod_cast h3)) <;>
    simp [*, pdiv, bind, Except.bind, pure, Except.pure]

/-- Score-formula bound: the composite `0.7·ctx + 0.3·(100 - D)` is at
most `100` whenever `ctx ≤ 100` and `0 ≤ D`, before and after rounding. -/
theorem overall_score_le_100 (ctx D : ℚ) (h1 : ctx ≤ 100) (h2 : 0 ≤ D) :
    round2 (ctx * 0.7 + (100 - D) * 0.3) ≤ 100 := by
  apply round2_le_100
  nlinarith

/-- C2 (amended): the overall punctuation score never exceeds 100.  The
lower end of the claimed range fails: the score is not clamped below and
can be negative (see the counterexample). -/
theorem C2_overall_score_le_100 (reference hypothesis : List Char) :
    (calculate_punctuation_metrics reference hypothesis).overall_punctuation_score
      ≤ 100 := by
  simp only [calculate_punctuation_metrics]
  apply overall_score_le_100
  · split
    case isTrue h =>
      rw [div_mul_eq_mul_div, div_le_iff₀ (by exact_mod_cast h)]
      have hle : matched_contexts (group_contexts (extract_punctuation_context reference 2))
          (group_contexts (extract_punctuation_context hypothesis 2))
          ≤ (group_contexts (extract_punctuation_context reference 2)).length :=
        List.countP_le_length _
      have hle' : ((matched_contexts (group_contexts (extract_punctuation_context reference 2))
          (group_contexts (extract_punctuation_context hypothesis 2)) : ℚ))
          ≤ ((group_contexts (extract_punctuation_context reference 2)).length : ℚ) := by
        exact_mod_cast hle
      nlinarith
    case isFalse h => norm_num
  · have : (0:ℚ) < max (if 0 < (pySplit reference).length then
        ((total_punctuation reference : ℚ)) / ((pySplit reference).length : ℚ) * 100
      else 0) 0.01 :=
      lt_of_lt_of_le (by norm_num) (le_max_right _ _)
    positivity

/-- Counterexample for C2 as stated: with reference "hello world" (no
punctuation) and hypothesis "!!!" the overall punctuation score is
-899970, far below the claimed range [0, 100]. -/
theorem C2_counterexample :
    (calculate_punctuation_metrics "hello world".data "!!!".data).overall_punctuation_score
        = -899970 ∧
    (calculate_punctuation_metrics "hello world".data "!!!".data).overall_punctuation_score
        < 0 := by
  have hd1 : group_contexts (extract_punctuation_context "hello world".data) = [] := by
    decide
  have hd2 : group_contexts (extract_punctuation_context "!!!".data)
      = [([], ['!'])] := by decide
  have ht1 : total_punctuation "hello world".data = 0 := by decide
  have ht2 : total_punctuation "!!!".data = 3 := by decide
  have hw1 : (pySplit "hello world".data).length = 2 := by decide
  have hw2 : (pySplit "!!!".data).length = 1 := by decide
  have hval :
      (calculate_punctuation_metrics "hello world".data "!!!".data).overall_punctuation_score
        = -899970 := by
    simp only [calculate_punctuation_metrics, hd1, hd2, ht1, ht2, hw1, hw2,
      matched_contexts, List.countP_nil, List.length_nil, Nat.lt_irrefl, if_false,
      Nat.cast_ofNat, Nat.cast_zero, Nat.cast_one]
    norm_num
    rw [round2_eval (n := -89997000) (by norm_num) (by norm_num)]
    norm_num
  exact ⟨hval, by rw [hval]; norm_num⟩

/-- C5 (amended): in `calculate_benchmarks.py` the reported word accuracy
is `round2(max(0, 1 - wer) * 100)` and lies in [0, 100]; in
`evaluate_transcripts.py` the word accuracy is `1 - wer` on the 0-1
scale, with no clamping (it is negative whenever WER exceeds 1). -/
theorem C5_word_accuracy (reference hypothesis : List Char) :
    (∀ (m : CalculateBenchmarks.Metrics) (w : ℚ),
      errorRate (pySplit reference) (pySplit hypothesis) = some w →
      CalculateBenchmarks.calculate_metrics reference hypothesis = some m →
      m.word_accuracy = round2 (max 0 (1 - w) * 100) ∧
      0 ≤ m.word_accuracy ∧ m.word_accuracy ≤ 100) ∧
    (∀ (m : EvaluateTranscripts.Metrics) (w : ℚ),
      errorRate (pySplit reference) (pySplit hypothesis) = some w →
      EvaluateTranscripts.calculate_metrics reference hypothesis = some m →
      m.word_accuracy = 1 - w) := by
  constructor
  · intro m w hw h
    have hw0 : 0 ≤ w := errorRate_nonneg hw
    simp only [CalculateBenchmarks.calculate_metrics, hw, bind, Option.bind] at h
    cases hc : errorRate reference hypothesis <;> rw [hc] at h
    · exact absurd h (by simp)
    simp only [pure, Option.some.injEq] at h
    subst h
    refine ⟨rfl, round2_nonneg (by positivity), ?_⟩
    apply round2_le_100
    have h1 : max 0 (1 - w) ≤ 1 := by
      apply max_le (by norm_num)
      linarith
    nlinarith
  · intro m w hw h
    simp only [EvaluateTranscripts.calculate_metrics, hw, bind, Option.bind] at h
    cases hc : errorRate reference hypothesis <;> rw [hc] at h
    · exact absurd h (by simp)
    simp only [pure, Option.some.injEq] at h
    subst h
    rfl

/-- Counterexample for C5 as stated: on reference "a" and hypothesis
"b c d" the WER is 3, and `evaluate_transcripts.py` reports word accuracy
`1 - 3 = -2`: not `max(0, 1 - wer) * 100 = 0`, and not in [0, 100]. -/
theorem C5_counterexample :
    ∃ m : EvaluateTranscripts.Metrics,
      EvaluateTranscripts.calculate_metrics "a".data "b c d".data = some m ∧
      m.wer = 3 ∧ m.word_accuracy = -2 ∧
      m.word_accuracy ≠ max 0 (1 - m.wer) * 100 ∧ m.word_accuracy < 0 := by
  have hs1 : pySplit "a".data = [['a']] := by decide
  have hs2 : pySplit "b c d".data = [['b'], ['c'], ['d']] := by decide
  have ha1 : align [['a']] [['b'], ['c'], ['d']] = ⟨0, 1, 0, 2⟩ := by
    simp [align, editDist]
  have ha2 : align "a".data "b c d".data = ⟨0, 1, 0, 4⟩ := by
    simp [align, editDist]
  have he1 : errorRate [['a']] [['b'], ['c'], ['d']] = some 3 := by
    rw [errorRate, ha1]
    norm_num
  have he2 : errorRate "a".data "b c d".data = some 5 := by
    rw [errorRate, ha2]
    norm_num
  have hE : EvaluateTranscripts.calculate_metrics "a".data "b c d".data
      = some ⟨3, 5, -2, 1, 0, 2, 0, 1, 3⟩ := by
    simp only [EvaluateTranscripts.calculate_metrics, hs1, hs2, he1, he2, ha1, bind,
      Option.bind, pure, Option.some.injEq, EvaluateTranscripts.Metrics.mk.injEq]
    norm_num
  refine ⟨_, hE, rfl, rfl, by norm_num, by norm_num⟩

/-- Witness for C5 on the concrete pair "a" / "b c d" (WER = 3). -/
theorem C5_word_accuracy_witness :
    ∃ (m : CalculateBenchmarks.Metrics) (mE : EvaluateTranscripts.Metrics) (w : ℚ),
      errorRate (pySplit "a".data) (pySplit "b c d".data) = some w ∧
      CalculateBenchmarks.calculate_metrics "a".data "b c d".data = some m ∧
      EvaluateTranscripts.calculate_metrics "a".data "b c d".data = some mE ∧
      m.word_accuracy = round2 (max 0 (1 - w) * 100) ∧
      0 ≤ m.word_accuracy ∧ m.word_accuracy ≤ 100 ∧
      mE.word_accuracy = 1 - w := by
  have hs1 : pySplit "a".data = [['a']] := by decide
  have hs2 : pySplit "b c d".data = [['b'], ['c'], ['d']] := by decide
  have ha1 : align [['a']] [['b'], ['c'], ['d']] = ⟨0, 1, 0, 2⟩ := by
    simp [align, editDist]
  have ha2 : align "a".data "b c d".data = ⟨0, 1, 0, 4⟩ := by
    simp [align, editDist]
  have he1 : errorRate [['a']] [['b'], ['c'], ['d']] = some 3 := by
    rw [errorRate, ha1]
    norm_num
  have he1' : errorRate (pySplit "a".data) (pySplit "b c d".data) = some 3 := by
    rw [hs1, hs2]
    exact he1
  have he2 : errorRate "a".data "b c d".data = some 5 := by
    rw [errorRate, ha2]
    norm_num
  have hr0 : round2 0 = 0 := by
    rw [round2_eval (n := 0) (by norm_num) (by norm_num)]; norm_num
  have hB : CalculateBenchmarks.calculate_metrics "a".data "b c d".data
      = some ⟨300, 500, 0, 2, 0, 1, 0⟩ := by
    simp only [CalculateBenchmarks.calculate_metrics, hs1, hs2, he1, he2, ha1, bind,
      Option.bind, pure, Option.some.injEq, CalculateBenchmarks.Metrics.mk.injEq]
    refine ⟨?_, ?_, ?_, trivial, trivial, trivial, trivial⟩
    · rw [show (3:ℚ) * 100 = 300 by norm_num,
        round2_eval (n := 30000) (by norm_num) (by norm_num)]
      norm_num
    · rw [show (5:ℚ) * 100 = 500 by norm_num,
        round2_eval (n := 50000) (by norm_num) (by norm_num)]
      norm_num
    · rw [show max (0:ℚ) (1 - 3) * 100 = 0 by norm_num]
      exact hr0
  have hE : EvaluateTranscripts.calculate_metrics "a".data "b c d".data
      = some ⟨3, 5, -2, 1, 0, 2, 0, 1, 3⟩ := by
    simp only [EvaluateTranscripts.calculate_metrics, hs1, hs2, he1, he2, ha1, bind,
      Option.bind, pure, Option.some.injEq, EvaluateTranscripts.Metrics.mk.injEq]
    norm_num
  obtain ⟨hacc, hge, hle⟩ :=
    (C5_word_accuracy "a".data "b c d".data).1 _ 3 he1' hB
  exact ⟨_, _, 3, he1', hB, hE, hacc, hge, hle,
    (C5_word_accuracy "a".data "b c d".data).2 _ 3 he1' hE⟩

theorem lookup_mark_entry (reference hypothesis : List Char) (m : Char) :
    ∀ (ms : List Char) (e : MarkAccuracy),
      List.lookup m (ms.map (mark_accuracy_entry reference hypothesis)) = some e →
      e = { reference_count := count_punctuation reference m,
            hypothesis_count := count_punctuation hypothesis m,
            count_accuracy := round2 (mark_count_accuracy
              (count_punctuation reference m) (count_punctuation hypothesis m)) }
  | [], e, h => by simp [List.lookup] at h
  | k :: ks, e, h => by
      rw [List.map_cons, mark_accuracy_entry, List.lookup] at h
      split at h
      · rename_i hbeq
        have hk : m = k := by simpa using hbeq
        cases h
        rw [hk]
      · exact lookup_mark_entry reference hypothesis m ks e h

/-- C6: every entry of the `mark_accuracy` mapping of
`calculate_punctuation_metrics` records the raw reference and hypothesis
counts of its mark together with the rounded case-formula accuracy
(`100` when both counts are zero, `0` when only the reference count is
zero, otherwise `max(0, 100 - |ref - hyp| / ref * 100)`); concretely the
formula gives `100` for counts 10/10, `0` for 10/0, `100` for 0/0. -/
theorem C6_mark_count_accuracy (reference hypothesis : List Char) :
    (∀ (m : Char) (e : MarkAccuracy),
      List.lookup m (calculate_punctuation_metrics reference hypothesis).mark_accuracy
        = some e →
      e.reference_count = count_punctuation reference m ∧
      e.hypothesis_count = count_punctuation hypothesis m ∧
      e.count_accuracy = round2 (mark_count_accuracy
        (count_punctuation reference m) (count_punctuation hypothesis m))) ∧
    mark_count_accuracy 10 10 = 100 ∧
    mark_count_accuracy 10 0 = 0 ∧
    mark_count_accuracy 0 0 = 100 := by
  refine ⟨?_, ?_, ?_, ?_⟩
  · intro m e h
    simp only [calculate_punctuation_metrics] at h
    rw [lookup_mark_entry reference hypothesis m (mark_union reference hypothesis) e h]
    exact ⟨rfl, rfl, rfl⟩
  · norm_num [mark_count_accuracy]
  · norm_num [mark_count_accuracy]
  · norm_num [mark_count_accuracy]

/-- Witness for C6 on the concrete pair "a," / "b" at the mark `,`. -/
theorem C6_mark_count_accuracy_witness :
    ∃ e : MarkAccuracy,
      List.lookup ','
          (calculate_punctuation_metrics "a,".data "b".data).mark_accuracy = some e ∧
      e.reference_count = count_punctuation "a,".data ',' ∧
      e.count_accuracy = round2 (mark_count_accuracy
        (count_punctuation "a,".data ',') (count_punctuation "b".data ',')) ∧
      mark_count_accuracy 10 10 = 100 := by
  have hu : mark_union "a,".data "b".data = [','] := by decide
  have hm : List.lookup ','
      (calculate_punctuation_metrics "a,".data "b".data).mark_accuracy
      = some (mark_accuracy_entry "a,".data "b".data ',').2 := by
    simp only [calculate_punctuation_metrics, hu, List.map_cons, List.map_nil]
    rw [mark_accuracy_entry, List.lookup]
    simp
  obtain ⟨h1, _, h3⟩ := (C6_mark_count_accuracy "a,".data "b".data).1 ',' _ hm
  exact ⟨_, hm, h1, h3, (C6_mark_count_accuracy "a,".data "b".data).2.1⟩

/-- C7: an empty reference token sequence makes `calculate_metrics`
return the distinguished flagged state rather than a metric record, and
`main`'s per-run handling drops a failed run and continues the batch:
one run's failure never fails the whole batch. -/
theorem C7_empty_reference (reference hypothesis : List Char)
    (r : Nat × List Char) (rest : List (Nat × List Char)) :
    (pySplit reference = [] → pySplit hypothesis ≠ [] →
      CalculateBenchmarks.calculate_metrics reference hypothesis = none) ∧
    (CalculateBenchmarks.calculate_metrics reference r.2 = none →
      CalculateBenchmarks.processRuns reference (r :: rest)
        = CalculateBenchmarks.processRuns reference rest) := by
  constructor
  · intro h1 h2
    have hlen : (pySplit hypothesis).length ≠ 0 := by
      simpa [List.length_eq_zero] using h2
    simp [CalculateBenchmarks.calculate_metrics, errorRate, h1, hlen, bind, Option.bind]
  · intro h
    simp [CalculateBenchmarks.processRuns, h]

/-- Witness for C7: empty reference, runs "x" and "y"; the batch result
is the same as if the failed first run had not been there. -/
theorem C7_empty_reference_witness :
    CalculateBenchmarks.calculate_metrics "".data "x".data = none ∧
    CalculateBenchmarks.processRuns "".data [(1, "x".data), (2, "y".data)]
      = CalculateBenchmarks.processRuns "".data [(2, "y".data)] := by
  have h1 : pySplit ("".data) = [] := by decide
  have h2 : pySplit "x".data ≠ [] := by decide
  have hnone := (C7_empty_reference "".data "x".data ((1, "x".data)) []).1 h1 h2
  exact ⟨hnone,
    (C7_empty_reference "".data "x".data ((1, "x".data)) [(2, "y".data)]).2 hnone⟩

theorem filterMap_if_eq_map_filter {α β : Type} (p : α → Prop) [DecidablePred p]
    (g : α → β) :
    ∀ l : List α, (l.filterMap (fun a => if p a then some (g a) else none))
      = (l.filter (fun a => decide (p a))).map g
  | [] => rfl
  | a :: l => by
      by_cases h : p a <;>
        simp [List.filterMap_cons, List.filter_cons, h,
          filterMap_if_eq_map_filter p g l]

theorem insertPair_lookup (k : List Char) :
    ∀ (d : List (List Char × List Char)) (c : List Char) (p : Char),
      List.lookup k (insertPair d c p)
        = if k = c then some ((List.lookup k d).getD [] ++ [p]) else List.lookup k d
  | [], c, p => by
      by_cases h : k = c
      · simp [insertPair, List.lookup, h]
      · have hbeq : (k == c) = false := by simpa using h
        simp [insertPair, List.lookup, hbeq, h]
  | (k', v) :: d, c, p => by
      simp only [insertPair]
      by_cases hk'c : k' = c
      · rw [if_pos hk'c]
        subst hk'c
        by_cases hkk : k = k'
        · subst hkk
          simp [List.lookup]
        · have hbeq : (k == k') = false := by simpa using hkk
          simp [List.lookup, hbeq, hkk]
      · rw [if_neg hk'c]
        by_cases hkk : k = k'
        · subst hkk
          have hkc : ¬ k = c := fun h => hk'c h
          simp [List.lookup, hkc]
        · have hbeq : (k == k') = false := by simpa using hkk
          simp [List.lookup, hbeq, insertPair_lookup k d c p]

theorem groupAux_lookup (k : List Char) :
    ∀ (ps : List (List Char × Char)) (d : List (List Char × List Char)),
      List.lookup k (ps.foldl (fun acc cp => insertPair acc cp.1 cp.2) d)
        = Option.elim (List.lookup k d)
            (if (ps.filter (fun q => q.1 == k)) = [] then none
             else some ((ps.filter (fun q => q.1 == k)).map Prod.snd))
            (fun v => some (v ++ (ps.filter (fun q => q.1 == k)).map Prod.snd))
  | [], d => by
      cases h : List.lookup k d <;> simp [h]
  | (c, p) :: ps, d => by
      rw [List.foldl_cons, groupAux_lookup k ps (insertPair d c p), insertPair_lookup]
      by_cases hkc : k = c
      · rw [if_pos hkc]
        have hbeq : (c == k) = true := by simpa using hkc.symm
        cases h : List.lookup k d
        · simp [List.filter_cons, h, hbeq]
        · simp [List.filter_cons, h, hbeq]
      · rw [if_neg hkc]
        have hbeq : (c == k) = false := by simpa using fun h => hkc h.symm
        have hfilter : List.filter (fun q => q.1 == k) ((c, p) :: ps)
            = List.filter (fun q => q.1 == k) ps := by
          simp [List.filter_cons, hbeq]
        rw [hfilter]

/-- C3 (amended): context extraction matches on the eight-mark alphabet
`. ! ? , ; : - —` only — the double quote and the apostrophe, although
counted by `count_punctuation`, yield no context pairs.  A token of the
text yields at least one pair exactly when it contains a mark of the
eight-mark alphabet, every emitted pair carries a mark of that alphabet,
and every pair of a host token is emitted into the extraction result. -/
theorem C3_context_alphabet (text : List Char) (cw : Nat) :
    (∀ p ∈ extract_punctuation_context text cw, p.2 ∈ punctuation_marks) ∧
    (∀ (i : Nat) (w : List Char), (pySplit text)[i]? = some w →
      (hostPairs (pySplit text) cw i w ≠ [] ↔ ∃ m ∈ punctuation_marks, m ∈ w)) ∧
    (∀ (i : Nat) (w : List Char), (pySplit text)[i]? = some w →
      ∀ p ∈ hostPairs (pySplit text) cw i w, p ∈ extract_punctuation_context text cw) := by
  refine ⟨?_, ?_, ?_⟩
  · intro p hp
    simp only [extract_punctuation_context, List.mem_flatMap] at hp
    obtain ⟨iw, _, hp⟩ := hp
    simp only [hostPairs, List.mem_filterMap] at hp
    obtain ⟨m, hm, hif⟩ := hp
    split at hif
    · cases hif
      exact hm
    · cases hif
  · intro i w _
    rw [hostPairs, Ne, List.filterMap_eq_nil_iff]
    constructor
    · intro h
      by_contra hall
      push_neg at hall
      exact h (fun m hm => if_neg (hall m hm))
    · rintro ⟨m, hm, hmw⟩ hall
      have := hall m hm
      rw [if_pos hmw] at this
      cases this
  · intro i w hg p hp
    simp only [extract_punctuation_context, List.mem_flatMap]
    exact ⟨(i, w), List.mem_enum_iff_getElem?.mpr hg, hp⟩

/-- Counterexample for C3 as stated: the apostrophe belongs to the
claimed ten-mark alphabet and occurs in the single token of the text
d-o-n-apostrophe-t, which `count_punctuation` tallies, yet context
extraction emits no pair at all. -/
theorem C3_counterexample :
    extract_punctuation_context ("don".data ++ [Char.ofNat 39] ++ "t".data) = [] ∧
    Char.ofNat 39 ∈ count_punctuation_marks ∧
    Char.ofNat 39 ∈ ("don".data ++ [Char.ofNat 39] ++ "t".data) ∧
    count_punctuation ("don".data ++ [Char.ofNat 39] ++ "t".data) (Char.ofNat 39) = 1 := by
  decide

/-- Witness for C3 on the text "a." (token containing a mark of the
eight-mark alphabet). -/
theorem C3_context_alphabet_witness :
    hostPairs (pySplit "a.".data) 2 0 ['a', '.'] ≠ [] ∧
    ∀ p ∈ hostPairs (pySplit "a.".data) 2 0 ['a', '.'],
      p ∈ extract_punctuation_context "a.".data 2 ∧ p.2 ∈ punctuation_marks := by
  have hg : (pySplit "a.".data)[0]? = some ['a', '.'] := by decide
  obtain ⟨h1, h2, h3⟩ := C3_context_alphabet "a.".data 2
  exact ⟨(h2 0 _ hg).mpr ⟨'.', by decide, by decide⟩,
    fun p hp => ⟨h3 0 _ hg p hp, h1 p (h3 0 _ hg p hp)⟩⟩

/-- C4 (amended): a host token contributes exactly one pair per DISTINCT
mark of the eight-mark alphabet it contains — a repeated mark still
yields a single pair, and the pairs of one token appear in the fixed
alphabet order, not in the order the marks occur in the token; the
per-context grouping binds each context to the list of its marks in
emission order with duplicates (from distinct host tokens) retained. -/
theorem C4_pairs_per_mark_and_grouping :
    (∀ (words : List (List Char)) (cw i : Nat) (w : List Char),
      hostPairs words cw i w
        = (punctuation_marks.filter (fun m => decide (m ∈ w))).map
            (fun m => (punctContext words cw i w, m))) ∧
    (∀ (ps : List (List Char × Char)) (k : List Char),
      List.lookup k (group_contexts ps)
        = if (ps.filter (fun q => q.1 == k)) = [] then none
          else some ((ps.filter (fun q => q.1 == k)).map Prod.snd)) := by
  constructor
  · intro words cw i w
    exact filterMap_if_eq_map_filter _ _ punctuation_marks
  · intro ps k
    simpa [group_contexts] using groupAux_lookup k ps []

/-- Counterexample for C4 as stated: the token "a.." contains the period
twice but yields ONE pair, not two; and the token "b!." emits its pairs
in alphabet order (period before exclamation mark), not in the order the
marks occur in the token. -/
theorem C4_counterexample :
    (extract_punctuation_context "a..".data).length = 1 ∧
    "a..".data.count '.' = 2 ∧
    extract_punctuation_context "a..".data = [(['a'], '.')] ∧
    extract_punctuation_context "b!.".data = [(['b'], '.'), (['b'], '!')] := by
  decide

theorem round2_zero : round2 0 = 0 := by
  rw [round2_eval (n := 0) (by norm_num) (by norm_num)]
  norm_num

theorem round2_hundred : round2 100 = 100 := by
  rw [round2_eval (n := 10000) (by norm_num) (by norm_num)]
  norm_num

theorem insertPair_keys (c : List Char) (p : Char) :
    ∀ d : List (List Char × List Char),
      (insertPair d c p).map Prod.fst
        = if c ∈ d.map Prod.fst then d.map Prod.fst else d.map Prod.fst ++ [c]
  | [] => by simp [insertPair]
  | (k, v) :: d => by
      by_cases hkc : k = c
      · subst hkc
        simp [insertPair]
      · have hck : ¬ c = k := fun h => hkc h.symm
        simp only [insertPair, if_neg hkc, List.map_cons, insertPair_keys c p d,
          List.mem_cons]
        by_cases hmem : c ∈ d.map Prod.fst
        · rw [if_pos hmem, if_pos (Or.inr hmem)]
        · rw [if_neg hmem, if_neg (by rintro (h | h) <;> [exact hck h; exact hmem h]),
            List.cons_append]

theorem group_keys_nodup :
    ∀ (ps : List (List Char × Char)) (d : List (List Char × List Char)),
      (d.map Prod.fst).Nodup →
      ((ps.foldl (fun acc cp => insertPair acc cp.1 cp.2) d).map Prod.fst).Nodup
  | [], _, h => h
  | (c, p) :: ps, d, h => by
      rw [List.foldl_cons]
      apply group_keys_nodup ps
      rw [insertPair_keys]
      split
      · exact h
      · rename_i hnot
        exact h.append (List.nodup_singleton c) (by simpa using hnot)

theorem lookup_self_of_nodup :
    ∀ d : List (List Char × List Char), (d.map Prod.fst).Nodup →
      ∀ kv ∈ d, List.lookup kv.1 d = some kv.2
  | [], _, kv, h => absurd h (List.not_mem_nil kv)
  | (k, v) :: d, hnd, kv, h => by
      rw [List.map_cons, List.nodup_cons] at hnd
      rcases List.mem_cons.mp h with h1 | h2
      · subst h1
        simp [List.lookup]
      · have hk : kv.1 ≠ k := by
          intro he
          have hmm : kv.1 ∈ d.map Prod.fst := List.mem_map_of_mem Prod.fst h2
          exact hnd.1 (he ▸ hmm)
        have hbeq : (kv.1 == k) = false := by simpa using hk
        simp only [List.lookup, hbeq]
        exact lookup_self_of_nodup d hnd.2 kv h2

theorem insertPair_length_ge (c : List Char) (p : Char) :
    ∀ d : List (List Char × List Char), d.length ≤ (insertPair d c p).length
  | [] => by simp [insertPair]
  | (k, v) :: d => by
      by_cases hkc : k = c <;>
        simp [insertPair, hkc, insertPair_length_ge c p d]

theorem group_foldl_length_ge :
    ∀ (ps : List (List Char × Char)) (d : List (List Char × List Char)),
      d.length ≤ (ps.foldl (fun acc cp => insertPair acc cp.1 cp.2) d).length
  | [], _ => le_refl _
  | (c, p) :: ps, d => by
      rw [List.foldl_cons]
      exact le_trans (insertPair_length_ge c p d)
        (group_foldl_length_ge ps (insertPair d c p))

theorem group_contexts_ne_nil {ps : List (List Char × Char)} (h : ps ≠ []) :
    group_contexts ps ≠ [] := by
  match ps, h with
  | (c, p) :: ps, _ =>
    rw [group_contexts, List.foldl_cons]
    have h1 : (insertPair [] c p).length = 1 := by simp [insertPair]
    have := group_foldl_length_ge ps (insertPair [] c p)
    rw [h1] at this
    intro hcon
    rw [hcon] at this
    simp at this

/-- C8 (amended): evaluating a text against itself is perfect on the
alignment side for every text — hits equal to the token count, zero
substitutions, deletions and insertions, WER 0 — and every mark accuracy
entry is 100; the context match accuracy and the overall punctuation
score are 100 when the text has at least one punctuation context, but
NOT otherwise (a punctuation-free text gets context accuracy 0 and
overall score 30, see the counterexample). -/
theorem C8_self_evaluation (A : List Char) :
    align (pySplit A) (pySplit A) = ⟨(pySplit A).length, 0, 0, 0⟩ ∧
    errorRate (pySplit A) (pySplit A) = some 0 ∧
    (∀ e ∈ (calculate_punctuation_metrics A A).mark_accuracy,
      e.2.count_accuracy = 100) ∧
    (extract_punctuation_context A ≠ [] →
      (calculate_punctuation_metrics A A).context_match_accuracy = 100 ∧
      (calculate_punctuation_metrics A A).overall_punctuation_score = 100) := by
  refine ⟨align_self _, ?_, ?_, ?_⟩
  · rw [errorRate, align_self]
    split
    · rfl
    · simp
  · intro e he
    simp only [calculate_punctuation_metrics, List.mem_map] at he
    obtain ⟨m, hm, hme⟩ := he
    rw [mark_union, List.mem_filter] at hm
    have hc0 : ¬ count_punctuation A m = 0 := by
      rcases Bool.or_eq_true_iff.mp hm.2 with h | h <;>
        [exact Nat.pos_iff_ne_zero.mp (of_decide_eq_true h);
         exact Nat.pos_iff_ne_zero.mp (of_decide_eq_true h)]
    subst hme
    show round2 (mark_count_accuracy (count_punctuation A m) (count_punctuation A m)) = 100
    rw [mark_count_accuracy, if_neg hc0, sub_self, abs_zero, zero_div, zero_mul]
    norm_num [round2_hundred]
  · intro hne
    have hD : group_contexts (extract_punctuation_context A 2) ≠ [] :=
      group_contexts_ne_nil hne
    have hlen : 0 < (group_contexts (extract_punctuation_context A 2)).length :=
      List.length_pos.mpr hD
    have hnodup : ((group_contexts (extract_punctuation_context A 2)).map Prod.fst).Nodup :=
      group_keys_nodup (extract_punctuation_context A 2) [] (by simp)
    have hmatched : matched_contexts (group_contexts (extract_punctuation_context A 2))
        (group_contexts (extract_punctuation_context A 2))
        = (group_contexts (extract_punctuation_context A 2)).length := by
      rw [matched_contexts]
      rw [List.countP_eq_length]
      intro kv hkv
      rw [lookup_self_of_nodup _ hnodup kv hkv]
      simp
    have hcast : (((group_contexts (extract_punctuation_context A 2)).length : ℚ)) ≠ 0 :=
      Nat.cast_ne_zero.mpr (Nat.pos_iff_ne_zero.mp hlen)
    constructor
    · show round2 (if 0 < (group_contexts (extract_punctuation_context A 2)).length then
        ((matched_contexts (group_contexts (extract_punctuation_context A 2))
          (group_contexts (extract_punctuation_context A 2)) : ℚ))
          / (((group_contexts (extract_punctuation_context A 2)).length : ℚ)) * 100
        else 0) = 100
      rw [if_pos hlen, hmatched, div_self hcast, one_mul, round2_hundred]
    · simp only [calculate_punctuation_metrics]
      rw [if_pos hlen, hmatched, div_self hcast, one_mul, sub_self, abs_zero, zero_div,
        zero_mul, sub_zero]
      norm_num [round2_hundred]

/-- Witness for C8 on the spec's own example text "a, b. c!". -/
theorem C8_self_evaluation_witness :
    extract_punctuation_context "a, b. c!".data ≠ [] ∧
    (calculate_punctuation_metrics "a, b. c!".data "a, b. c!".data).context_match_accuracy
      = 100 ∧
    (calculate_punctuation_metrics "a, b. c!".data "a, b. c!".data).overall_punctuation_score
      = 100 ∧
    errorRate (pySplit "a, b. c!".data) (pySplit "a, b. c!".data) = some 0 := by
  have hne : extract_punctuation_context "a, b. c!".data ≠ [] := by decide
  obtain ⟨-, he, -, himp⟩ := C8_self_evaluation "a, b. c!".data
  obtain ⟨hc, ho⟩ := himp hne
  exact ⟨hne, hc, ho, he⟩

/-- Counterexample for C8 as stated: the punctuation-free text "hello"
evaluated against itself reports context match accuracy 0 (not 100) and
overall score 30 (not 100). -/
theorem C8_counterexample :
    (calculate_punctuation_metrics "hello".data "hello".data).context_match_accuracy = 0 ∧
    (calculate_punctuation_metrics "hello".data "hello".data).context_match_accuracy ≠ 100 ∧
    (calculate_punctuation_metrics "hello".data "hello".data).overall_punctuation_score = 30 := by
  have hd : group_contexts (extract_punctuation_context "hello".data) = [] := by decide
  have ht : total_punctuation "hello".data = 0 := by decide
  have hw : (pySplit "hello".data).length = 1 := by decide
  have hctx : (calculate_punctuation_metrics "hello".data "hello".data).context_match_accuracy
      = 0 := by
    simp only [calculate_punctuation_metrics, hd, List.length_nil, Nat.lt_irrefl, if_false]
    norm_num [round2_zero]
  have hov : (calculate_punctuation_metrics "hello".data "hello".data).overall_punctuation_score
      = 30 := by
    simp only [calculate_punctuation_metrics, hd, ht, hw, List.length_nil, Nat.lt_irrefl,
      if_false, Nat.cast_zero, Nat.cast_one]
    norm_num
    rw [round2_eval (n := 3000) (by norm_num) (by norm_num)]
    norm_num
  exact ⟨hctx, by rw [hctx]; norm_num, hov⟩

theorem pySortedDesc_perm {α : Type} (key : α → ℚ) (l : List α) :
    List.Perm (pySortedDesc key l) l :=
  List.mergeSort_perm l _

theorem pySortedDesc_sorted {α : Type} (key : α → ℚ) (l : List α) :
    (pySortedDesc key l).Pairwise (fun a b => key b ≤ key a) := by
  have h := @List.sorted_mergeSort _ (fun x y => decide (key y ≤ key x))
    (fun x y z hxy hyz => by
      simp only [decide_eq_true_eq] at *
      exact le_trans hyz hxy)
    (fun x y => by
      simp only [Bool.or_eq_true, decide_eq_true_eq]
      exact le_total (key y) (key x))
    l
  exact h.imp (fun hab => by simpa using hab)

theorem pySortedDesc_stable {α : Type} (key : α → ℚ) (l : List α) (a b : α)
    (hsub : List.Sublist [a, b] l) (hkey : key b ≤ key a) :
    List.Sublist [a, b] (pySortedDesc key l) := by
  apply @List.pair_sublist_mergeSort _ (fun x y => decide (key y ≤ key x))
  · intro x y z hxy hyz
    simp only [decide_eq_true_eq] at *
    exact le_trans hyz hxy
  · intro x y
    simp only [Bool.or_eq_true, decide_eq_true_eq]
    exact le_total (key y) (key x)
  · simpa using hkey
  · exact hsub

/-- C9: both summary rankings (by word accuracy and by overall
punctuation score, each descending) are permutations of their input,
sorted descending by the chosen metric, and stable: any two records in
input order whose keys are already weakly ordered (ties included) keep
their relative order in the output; on input word accuracies
[90, 95, 90] the ranking is [95, 90(first), 90(second)]. -/
theorem C9_stable_ranking :
    (∀ l : List (Nat × CalculateBenchmarks.Metrics),
      List.Perm (CalculateBenchmarks.sortResults l) l ∧
      (CalculateBenchmarks.sortResults l).Pairwise
        (fun a b => b.2.word_accuracy ≤ a.2.word_accuracy) ∧
      (∀ a b, List.Sublist [a, b] l → b.2.word_accuracy ≤ a.2.word_accuracy →
        List.Sublist [a, b] (CalculateBenchmarks.sortResults l))) ∧
    (∀ l : List (Nat × PunctuationMetrics),
      List.Perm (sortPunctuationResults l) l ∧
      (sortPunctuationResults l).Pairwise
        (fun a b => b.2.overall_punctuation_score ≤ a.2.overall_punctuation_score) ∧
      (∀ a b, List.Sublist [a, b] l →
        b.2.overall_punctuation_score ≤ a.2.overall_punctuation_score →
        List.Sublist [a, b] (sortPunctuationResults l))) ∧
    CalculateBenchmarks.sortResults
        [(1, ⟨10, 10, 90, 0, 0, 0, 0⟩), (2, ⟨5, 5, 95, 0, 0, 0, 0⟩),
         (3, ⟨10, 10, 90, 0, 0, 0, 0⟩)]
      = [(2, ⟨5, 5, 95, 0, 0, 0, 0⟩), (1, ⟨10, 10, 90, 0, 0, 0, 0⟩),
         (3, ⟨10, 10, 90, 0, 0, 0, 0⟩)] := by
  refine ⟨?_, ?_, ?_⟩
  · intro l
    exact ⟨pySortedDesc_perm _ l, pySortedDesc_sorted _ l,
      fun a b hsub hkey => pySortedDesc_stable _ l a b hsub hkey⟩
  · intro l
    exact ⟨pySortedDesc_perm _ l, pySortedDesc_sorted _ l,
      fun a b hsub hkey => pySortedDesc_stable _ l a b hsub hkey⟩
  · norm_num [CalculateBenchmarks.sortResults, pySortedDesc, List.mergeSort, List.merge,
      List.splitInTwo]

/-- Witness for C9: the two tied records of the concrete [90, 95, 90]
example keep their input order in the output ranking. -/
theorem C9_stable_ranking_witness :
    List.Sublist
        [((1, ⟨10, 10, 90, 0, 0, 0, 0⟩) : Nat × CalculateBenchmarks.Metrics),
         (3, ⟨10, 10, 90, 0, 0, 0, 0⟩)]
        (CalculateBenchmarks.sortResults
          [(1, ⟨10, 10, 90, 0, 0, 0, 0⟩), (2, ⟨5, 5, 95, 0, 0, 0, 0⟩),
           (3, ⟨10, 10, 90, 0, 0, 0, 0⟩)]) ∧
    List.Perm (sortPunctuationResults []) [] := by
  refine ⟨(C9_stable_ranking.1 _).2.2 _ _ ?_ ?_, (C9_stable_ranking.2.1 []).1⟩
  · exact List.Sublist.cons₂ _ (List.Sublist.cons _ (List.Sublist.refl _))
  · exact le_refl _
